import Mathlib

/-!
Verification of the BeyondChats scraping-and-enhancement pipeline.

Shallow embedding of the scraper's pure logic:
* `formatWithCitations` from `scraper/src/services/llm-enhancer.service.ts`
* `callWithRetry` from the same file (the OpenAI call is an oracle)
* `scrapeArticlesBatch` from `beyondchats-scraper.service.ts` and
  `storeArticles` from `api.service.ts` (per-item operations are oracles)
* `filterBlogResults` and the result-parsing of `searchArticleTitle`
  from `google-search.service.ts` / `api.service.ts`
* `scrapeArticleContent` / `scrapeContent` DOM extraction from
  `beyondchats-scraper.service.ts` / `reference-scraper.service.ts`,
  with the DOM modelled as a tree of nodes and `document.querySelector`
  as a function from selector strings to optional nodes.
-/

/-! ### Data model (scraper/src/types/index.ts) -/

structure ScrapedArticle where
  title : String
  content : String
  author : Option String
  publication_date : Option String
  source_url : String
deriving Repr, DecidableEq

structure ReferenceContent where
  title : String
  content : String
  source_url : String
deriving Repr, DecidableEq

structure SearchResult where
  title : String
  url : String
  snippet : Option String
deriving Repr, DecidableEq

structure ArticleLink where
  url : String
  title : Option String
deriving Repr, DecidableEq

structure GoogleSearchResult where
  results : List SearchResult
  query : String
deriving Repr, DecidableEq

/-! ### String helpers shared by the embedding -/

/-- Whitespace as stripped by JavaScript `String.prototype.trim`
(restricted to the ASCII whitespace that occurs in this pipeline). -/
def isWs (c : Char) : Bool :=
  c == ' ' || c == '\t' || c == '\n' || c == '\r'

/-- Strip `isWs` characters from both ends of a character list. -/
def trimChars (l : List Char) : List Char :=
  ((l.dropWhile isWs).reverse.dropWhile isWs).reverse

/-- JavaScript `s.trim()`. -/
def jsTrim (s : String) : String :=
  ⟨trimChars s.toList⟩

/-- JavaScript `s.toLowerCase()`. -/
def lowerStr (s : String) : String :=
  ⟨s.toList.map Char.toLower⟩

/-- `pat` occurs contiguously somewhere in `l`. -/
def occursIn (pat : List Char) : List Char → Bool
  | [] => pat.isEmpty
  | c :: rest => pat.isPrefixOf (c :: rest) || occursIn pat rest

/-- JavaScript `s.includes(pat)`: `pat` occurs contiguously in `s`. -/
def strContains (s pat : String) : Bool :=
  occursIn pat.toList s.toList

/-- Concatenation of a list of strings in order. -/
def strConcat : List String → String
  | [] => ""
  | s :: rest => s ++ strConcat rest

/-- Number of (possibly overlapping) occurrences of `pat` in a list. -/
def countOccur (pat : List Char) : List Char → Nat
  | [] => if pat = [] then 1 else 0
  | c :: rest => (if pat.isPrefixOf (c :: rest) then 1 else 0) + countOccur pat rest

/-- Number of occurrences of the string `pat` inside `s`. -/
def countOccurS (s pat : String) : Nat :=
  countOccur pat.toList s.toList

/-! ### `formatWithCitations` (llm-enhancer.service.ts, lines 146-159) -/

/-- One appended citation line: `` `${index + 1}. [${ref.title}](${ref.source_url})\n` ``
with `index` the 0-based position of the reference. -/
def citationLine (index : Nat) (ref : ReferenceContent) : String :=
  toString (index + 1) ++ ". [" ++ ref.title ++ "](" ++ ref.source_url ++ ")\n"

/-- The `references.forEach((ref, index) => ...)` accumulation loop. -/
def appendCitations (acc : String) (index : Nat) : List ReferenceContent → String
  | [] => acc
  | ref :: rest => appendCitations (acc ++ citationLine index ref) (index + 1) rest

/-- `formatWithCitations`: return `content` unchanged when `references` is
empty, otherwise append the separator, the References header and the
numbered citation lines to the trimmed content. -/
def formatWithCitations (content : String) (references : List ReferenceContent) : String :=
  if references.length = 0 then content
  else appendCitations (jsTrim content ++ "\n\n---\n\n## References\n\n") 0 references

/-! ### Lemmas about string containment and the citation loop -/

lemma isPrefixOf_append (p l k : List Char) (h : p.isPrefixOf l = true) :
    p.isPrefixOf (l ++ k) = true := by
  simp at h ⊢
  obtain ⟨t, ht⟩ := h
  exact ⟨t ++ k, by simp [← ht]⟩

lemma occursIn_nil_pat (l : List Char) : occursIn [] l = true := by
  cases l <;> simp [occursIn, List.isPrefixOf]

lemma occursIn_append_left (pat l k : List Char) (h : occursIn pat l = true) :
    occursIn pat (l ++ k) = true := by
  induction l with
  | nil =>
    simp [occursIn, List.isEmpty_iff] at h
    subst h
    exact occursIn_nil_pat k
  | cons c cs ih =>
    simp only [occursIn, Bool.or_eq_true] at h ⊢
    rcases h with h | h
    · exact Or.inl (isPrefixOf_append pat (c :: cs) k h)
    · exact Or.inr (ih h)

lemma occursIn_append_right (pat l k : List Char) (h : occursIn pat k = true) :
    occursIn pat (l ++ k) = true := by
  induction l with
  | nil => simpa using h
  | cons c cs ih =>
    simp [occursIn]
    exact Or.inr ih

lemma appendCitations_spec (refs : List ReferenceContent) :
    ∀ (acc : String) (i : Nat),
      appendCitations acc i refs
        = acc ++ strConcat ((List.enumFrom i refs).map fun p => citationLine p.1 p.2) := by
  induction refs with
  | nil => intro acc i; simp [appendCitations, strConcat, List.enumFrom]
  | cons r rs ih =>
    intro acc i
    simp [appendCitations, strConcat, List.enumFrom, ih, String.append_assoc]

/-! ### Claims C2 and C4: the citation block -/

/-- C2 counterexample: for a body that itself contains the text
`## References`, the output of `formatWithCitations` with one reference
contains the References section header twice, not exactly once. -/
theorem formatWithCitations_header_not_unique :
    countOccurS
      (formatWithCitations "## References"
        [⟨"Ref Title", "ref body", "https://example.com/a"⟩])
      "## References" = 2 := by decide

/-- C2 (amended): for every body and non-empty reference list, the output of
`formatWithCitations` is exactly the trimmed body followed by a separator,
the `## References` header and one numbered markdown link per reference,
in input order, numbered contiguously from 1; in particular the output
contains the References header (exactly once unless the body or the
references themselves contain the header text). -/
theorem formatWithCitations_structure (content : String) (refs : List ReferenceContent)
    (h : refs ≠ []) :
    formatWithCitations content refs
      = jsTrim content ++ "\n\n---\n\n## References\n\n"
          ++ strConcat ((List.enumFrom 0 refs).map fun p => citationLine p.1 p.2)
    ∧ strContains (formatWithCitations content refs) "## References" = true := by
  have hlen : ¬ refs.length = 0 := by simpa using h
  have heq : formatWithCitations content refs
      = jsTrim content ++ "\n\n---\n\n## References\n\n"
          ++ strConcat ((List.enumFrom 0 refs).map fun p => citationLine p.1 p.2) := by
    rw [formatWithCitations, if_neg hlen, appendCitations_spec, String.append_assoc]
  refine ⟨heq, ?_⟩
  rw [heq, strContains]
  have hdata : (jsTrim content ++ "\n\n---\n\n## References\n\n"
      ++ strConcat ((List.enumFrom 0 refs).map fun p => citationLine p.1 p.2)).toList
      = (jsTrim content).toList ++ (("\n\n---\n\n## References\n\n" : String).toList
          ++ (strConcat ((List.enumFrom 0 refs).map fun p => citationLine p.1 p.2)).toList) := by
    simp [String.toList, String.data_append]
  rw [hdata]
  apply occursIn_append_right
  apply occursIn_append_left
  decide

/-- C2 witness: the amended statement applied at a concrete body and a
concrete one-reference list. -/
theorem formatWithCitations_structure_witness :
    formatWithCitations "Body" [⟨"T", "c", "https://e.com"⟩]
      = jsTrim "Body" ++ "\n\n---\n\n## References\n\n"
          ++ strConcat ((List.enumFrom 0
              [(⟨"T", "c", "https://e.com"⟩ : ReferenceContent)]).map
                fun p => citationLine p.1 p.2)
    ∧ strContains (formatWithCitations "Body"
        [(⟨"T", "c", "https://e.com"⟩ : ReferenceContent)]) "## References" = true :=
  formatWithCitations_structure "Body" [⟨"T", "c", "https://e.com"⟩] (by decide)

/-- C4 counterexample: with an empty reference list the code returns the body
unchanged, not trimmed, so for a body with surrounding whitespace the output
differs from the trimmed input body. -/
theorem formatWithCitations_empty_not_trimmed :
    formatWithCitations " x " [] = " x " ∧ jsTrim " x " = "x"
      ∧ formatWithCitations " x " [] ≠ jsTrim " x " := by decide

/-- C4 (amended): for every body text, when the reference list is empty
`formatWithCitations` returns the input body unchanged (not trimmed), and the
output contains no References section it did not already contain. -/
theorem formatWithCitations_empty_refs (content : String) :
    formatWithCitations content [] = content
    ∧ (strContains content "## References" = false →
        strContains (formatWithCitations content []) "## References" = false) := by
  refine ⟨rfl, ?_⟩
  intro h
  simpa [formatWithCitations] using h

/-- C4 witness: the amended statement applied at a concrete body. -/
theorem formatWithCitations_empty_refs_witness :
    formatWithCitations "Hello" [] = "Hello"
    ∧ strContains (formatWithCitations "Hello" []) "## References" = false :=
  ⟨(formatWithCitations_empty_refs "Hello").1,
   (formatWithCitations_empty_refs "Hello").2 (by decide)⟩

/-! ### `callWithRetry` (llm-enhancer.service.ts, lines 90-140)

The OpenAI chat-completion call is modelled as an oracle from the attempt
number (1-based) to either a thrown error message (`Except.error`) or the
response body `response.choices[0]?.message?.content` (`Except.ok`, where the
empty string stands for a missing/empty body, which the code turns into a
thrown `Empty response from OpenAI API`). -/

/-- Observable trace of one `callWithRetry` run: the returned value or the
propagated error, the number of generation calls made, and the list of
backoff delays (in milliseconds) slept between attempts, in order. -/
instance {ε α : Type} [DecidableEq ε] [DecidableEq α] : DecidableEq (Except ε α) := fun
  | .ok a, .ok b =>
    if h : a = b then .isTrue (by rw [h])
    else .isFalse (by intro he; cases he; exact h rfl)
  | .ok _, .error _ => .isFalse (by intro h; cases h)
  | .error _, .ok _ => .isFalse (by intro h; cases h)
  | .error a, .error b =>
    if h : a = b then .isTrue (by rw [h])
    else .isFalse (by intro he; cases he; exact h rfl)

structure RetryTrace where
  result : Except String String
  calls : Nat
  delays : List Nat
deriving Repr, DecidableEq

/-- `config.openai.maxRetries` (config/index.ts, line 43). -/
def maxRetries : Nat := 3

def emptyResponseMsg : String := "Empty response from OpenAI API"

/-- Whether an attempt's outcome is treated as a failure by the code:
a thrown error, or a nominally successful call with an empty body. -/
def attemptFails : Except String String → Bool
  | .error _ => true
  | .ok c => c == ""

/-- The error recorded in `lastError` for a failed attempt. -/
def failMsg : Except String String → String
  | .error e => e
  | .ok _ => emptyResponseMsg

/-- The `for (let attempt = 1; attempt <= this.maxRetries; attempt++)` loop:
`attempt` is the 1-based attempt counter, `remaining` the number of attempts
still allowed, `lastError` the error of the most recent failed attempt.
A backoff of `2^(attempt-1) * 1000` ms is slept only when `attempt` is not
the final allowed attempt (`attempt < maxRetries`, i.e. `remaining > 1`). -/
def retryLoop (oracle : Nat → Except String String) :
    Nat → Nat → Option String → RetryTrace
  | _, 0, lastError =>
    ⟨.error (lastError.getD "LLM API call failed after all retries"), 0, []⟩
  | attempt, remaining + 1, _ =>
    match oracle attempt with
    | .ok c =>
      if c = "" then
        let rest := retryLoop oracle (attempt + 1) remaining (some emptyResponseMsg)
        ⟨rest.result, rest.calls + 1,
          (if remaining ≠ 0 then [2 ^ (attempt - 1) * 1000] else []) ++ rest.delays⟩
      else ⟨.ok c, 1, []⟩
    | .error e =>
      let rest := retryLoop oracle (attempt + 1) remaining (some e)
      ⟨rest.result, rest.calls + 1,
        (if remaining ≠ 0 then [2 ^ (attempt - 1) * 1000] else []) ++ rest.delays⟩

/-- `callWithRetry`, starting at attempt 1 with no recorded error. -/
def callWithRetry (oracle : Nat → Except String String) : RetryTrace :=
  retryLoop oracle 1 maxRetries none

lemma retryLoop_zero (oracle : Nat → Except String String) (attempt : Nat)
    (le : Option String) :
    retryLoop oracle attempt 0 le
      = ⟨.error (le.getD "LLM API call failed after all retries"), 0, []⟩ := rfl

lemma retryLoop_succ_err (oracle : Nat → Except String String)
    (attempt r : Nat) (le : Option String) (e : String)
    (ho : oracle attempt = .error e) :
    retryLoop oracle attempt (r + 1) le
      = ⟨(retryLoop oracle (attempt + 1) r (some e)).result,
         (retryLoop oracle (attempt + 1) r (some e)).calls + 1,
         (if r ≠ 0 then [2 ^ (attempt - 1) * 1000] else [])
           ++ (retryLoop oracle (attempt + 1) r (some e)).delays⟩ := by
  simp [retryLoop, ho]

lemma retryLoop_succ_empty (oracle : Nat → Except String String)
    (attempt r : Nat) (le : Option String)
    (ho : oracle attempt = .ok "") :
    retryLoop oracle attempt (r + 1) le
      = ⟨(retryLoop oracle (attempt + 1) r (some emptyResponseMsg)).result,
         (retryLoop oracle (attempt + 1) r (some emptyResponseMsg)).calls + 1,
         (if r ≠ 0 then [2 ^ (attempt - 1) * 1000] else [])
           ++ (retryLoop oracle (attempt + 1) r (some emptyResponseMsg)).delays⟩ := by
  simp [retryLoop, ho]

lemma retryLoop_succ_ok (oracle : Nat → Except String String)
    (attempt r : Nat) (le : Option String) (c : String)
    (ho : oracle attempt = .ok c) (hc : c ≠ "") :
    retryLoop oracle attempt (r + 1) le = ⟨.ok c, 1, []⟩ := by
  simp [retryLoop, ho, hc]

lemma retryLoop_calls_delays (oracle : Nat → Except String String) :
    ∀ (remaining attempt : Nat) (le : Option String), 1 ≤ remaining →
        (retryLoop oracle attempt remaining le).calls ≤ remaining
      ∧ (retryLoop oracle attempt remaining le).delays.length + 1
          = (retryLoop oracle attempt remaining le).calls := by
  intro remaining
  induction remaining with
  | zero => intro attempt le h; omega
  | succ n ih =>
    intro attempt le _
    have step : ∀ m : String,
        (retryLoop oracle (attempt + 1) n (some m)).calls ≤ n
          ∧ (retryLoop oracle (attempt + 1) n (some m)).delays.length + 1
              = (retryLoop oracle (attempt + 1) n (some m)).calls
          ∨ n = 0 ∧ retryLoop oracle (attempt + 1) n (some m)
              = ⟨.error m, 0, []⟩ := by
      intro m
      by_cases hn0 : n = 0
      · subst hn0
        exact Or.inr ⟨rfl, retryLoop_zero oracle (attempt + 1) (some m)⟩
      · exact Or.inl (ih (attempt + 1) (some m) (by omega))
    have finish : ∀ m : String,
        retryLoop oracle attempt (n + 1) le
          = ⟨(retryLoop oracle (attempt + 1) n (some m)).result,
             (retryLoop oracle (attempt + 1) n (some m)).calls + 1,
             (if n ≠ 0 then [2 ^ (attempt - 1) * 1000] else [])
               ++ (retryLoop oracle (attempt + 1) n (some m)).delays⟩ →
        (retryLoop oracle attempt (n + 1) le).calls ≤ n + 1
          ∧ (retryLoop oracle attempt (n + 1) le).delays.length + 1
              = (retryLoop oracle attempt (n + 1) le).calls := by
      intro m heq
      rcases step m with ⟨h1, h2⟩ | ⟨hn0, hz⟩
      · rw [heq]
        by_cases hn0 : n = 0
        · subst hn0; simp at h1; omega
        · constructor
          · simp; omega
          · simp [hn0]
            omega
      · subst hn0
        rw [heq, hz]
        simp
    rcases ho : oracle attempt with e | c
    · exact finish e (retryLoop_succ_err oracle attempt n le e ho)
    · by_cases hc : c = ""
      · subst hc
        exact finish emptyResponseMsg (retryLoop_succ_empty oracle attempt n le ho)
      · rw [retryLoop_succ_ok oracle attempt n le c ho hc]
        simp

lemma attemptFails_cases (r : Except String String) (h : attemptFails r = true) :
    (∃ e, r = .error e) ∨ r = .ok "" := by
  cases r with
  | error e => exact Or.inl ⟨e, rfl⟩
  | ok c =>
    simp [attemptFails] at h
    subst h
    exact Or.inr rfl

lemma retryLoop_succ_fail (oracle : Nat → Except String String)
    (attempt r : Nat) (le : Option String)
    (h : attemptFails (oracle attempt) = true) :
    retryLoop oracle attempt (r + 1) le
      = ⟨(retryLoop oracle (attempt + 1) r (some (failMsg (oracle attempt)))).result,
         (retryLoop oracle (attempt + 1) r (some (failMsg (oracle attempt)))).calls + 1,
         (if r ≠ 0 then [2 ^ (attempt - 1) * 1000] else [])
           ++ (retryLoop oracle (attempt + 1) r
                (some (failMsg (oracle attempt)))).delays⟩ := by
  rcases attemptFails_cases _ h with ⟨e, he⟩ | he
  · rw [retryLoop_succ_err oracle attempt r le e he, he]
    rfl
  · rw [retryLoop_succ_empty oracle attempt r le he, he]
    rfl

/-! ### Claims C3 and C10: retry behaviour -/

/-- C3: `callWithRetry` makes at most 3 generation calls; an empty response
body counts as a failure (`attemptFails`); a non-empty response at attempt k
(after failures on the earlier attempts) is returned with exactly k calls
and backoff delays of `2^(attempt-1)` seconds (1000 ms, 2000 ms) between
consecutive attempts; if all 3 attempts fail the last attempt's error is
propagated after exactly 3 calls. -/
theorem callWithRetry_spec (oracle : Nat → Except String String) :
    (callWithRetry oracle).calls ≤ 3
    ∧ (∀ c, oracle 1 = .ok c → c ≠ "" →
        callWithRetry oracle = ⟨.ok c, 1, []⟩)
    ∧ (attemptFails (oracle 1) = true → ∀ c, oracle 2 = .ok c → c ≠ "" →
        callWithRetry oracle = ⟨.ok c, 2, [1000]⟩)
    ∧ (attemptFails (oracle 1) = true → attemptFails (oracle 2) = true →
        ∀ c, oracle 3 = .ok c → c ≠ "" →
        callWithRetry oracle = ⟨.ok c, 3, [1000, 2000]⟩)
    ∧ (attemptFails (oracle 1) = true → attemptFails (oracle 2) = true →
        attemptFails (oracle 3) = true →
        callWithRetry oracle = ⟨.error (failMsg (oracle 3)), 3, [1000, 2000]⟩) := by
  refine ⟨?_, ?_, ?_, ?_, ?_⟩
  · simpa [callWithRetry, maxRetries]
      using (retryLoop_calls_delays oracle 3 1 none (by omega)).1
  · intro c h1 hc
    simp only [callWithRetry, maxRetries]
    rw [retryLoop_succ_ok oracle 1 2 none c h1 hc]
  · intro hf1 c h2 hc
    simp only [callWithRetry, maxRetries]
    rw [retryLoop_succ_fail oracle 1 2 none hf1,
      retryLoop_succ_ok oracle 2 1 _ c h2 hc]
    norm_num
  · intro hf1 hf2 c h3 hc
    simp only [callWithRetry, maxRetries]
    rw [retryLoop_succ_fail oracle 1 2 none hf1,
      retryLoop_succ_fail oracle 2 1 _ hf2,
      retryLoop_succ_ok oracle 3 0 _ c h3 hc]
    norm_num
  · intro hf1 hf2 hf3
    simp only [callWithRetry, maxRetries]
    rw [retryLoop_succ_fail oracle 1 2 none hf1,
      retryLoop_succ_fail oracle 2 1 _ hf2,
      retryLoop_succ_fail oracle 3 0 _ hf3,
      retryLoop_zero]
    norm_num [Option.getD]

/-- C3 witness: an oracle failing on attempts 1 and 2 and succeeding on
attempt 3 yields exactly 3 calls, the attempt-3 result, and the two backoff
delays. -/
theorem callWithRetry_spec_witness :
    callWithRetry (fun n => if n = 3 then Except.ok "done" else Except.error "boom")
      = ⟨Except.ok "done", 3, [1000, 2000]⟩ :=
  (callWithRetry_spec
      (fun n => if n = 3 then Except.ok "done" else Except.error "boom")).2.2.2.1
    rfl rfl "done" rfl (by decide)

/-- C10: in every run of `callWithRetry` the number of backoff delays is one
less than the number of calls made (a delay happens only between consecutive
attempts, never after the final one), so at most `maxRetries - 1 = 2` delays
are executed. -/
theorem callWithRetry_delay_count (oracle : Nat → Except String String) :
    (callWithRetry oracle).delays.length + 1 = (callWithRetry oracle).calls
    ∧ (callWithRetry oracle).delays.length ≤ 2 := by
  have h := retryLoop_calls_delays oracle 3 1 none (by omega)
  refine ⟨by simpa [callWithRetry, maxRetries] using h.2, ?_⟩
  have h1 := h.1
  have h2 := h.2
  simp only [callWithRetry, maxRetries]
  omega

/-! ### Batch runs (beyondchats-scraper.service.ts `scrapeArticlesBatch`,
api.service.ts `storeArticles`)

The per-item operations (`scrapeArticleContent` with its browser session,
`storeArticle` with its HTTP POST) are modelled as oracles giving every way
the surrounding `try/catch` can observe them. -/

/-- Outcome of one `scrapeArticleContent(link.url)` call as seen by
`scrapeArticlesBatch`: a success result carrying data, a failure result
carrying an error string (the code substitutes `Unknown error` for a missing
or empty one), or a thrown exception with message `msg`. -/
inductive ScrapeOutcome where
  | ok (a : ScrapedArticle)
  | fail (err : String)
  | thrown (msg : String)

/-- `BatchScrapeResult` (types/index.ts): ordered successes and ordered
`{url, error}` failures. -/
structure BatchScrapeResult where
  successful : List ScrapedArticle
  failed : List (String × String)
deriving Repr, DecidableEq

/-- `scrapeArticlesBatch`: iterate the links in order, pushing each item's
outcome onto the matching list and continuing past failures. -/
def scrapeArticlesBatch (scrape : ArticleLink → ScrapeOutcome) :
    List ArticleLink → BatchScrapeResult
  | [] => ⟨[], []⟩
  | l :: rest =>
    let r := scrapeArticlesBatch scrape rest
    match scrape l with
    | .ok a => ⟨a :: r.successful, r.failed⟩
    | .fail e => ⟨r.successful, (l.url, if e = "" then "Unknown error" else e) :: r.failed⟩
    | .thrown msg => ⟨r.successful, (l.url, msg) :: r.failed⟩

/-- A stored article as returned by the backend API (api.service.ts
`ApiArticle`). -/
structure ApiArticle where
  id : Nat
  title : String
  content : String
  author : Option String
  publication_date : Option String
  source_url : String
  created_at : String
  updated_at : String
deriving Repr, DecidableEq

/-- Outcome of one `storeArticle(article)` call as seen by `storeArticles`:
the created record, `null` (the method catches HTTP errors and returns
null), or a thrown exception with message `msg`. -/
inductive StoreOutcome where
  | stored (a : ApiArticle)
  | nullResult
  | thrown (msg : String)

/-- Result of `storeArticles`: ordered successes and ordered
`{article, error}` failures. -/
structure StoreBatchResult where
  successful : List ApiArticle
  failed : List (ScrapedArticle × String)
deriving Repr, DecidableEq

/-- `storeArticles`: iterate the articles in order, pushing each item's
outcome onto the matching list and continuing past failures. -/
def storeArticles (store : ScrapedArticle → StoreOutcome) :
    List ScrapedArticle → StoreBatchResult
  | [] => ⟨[], []⟩
  | a :: rest =>
    let r := storeArticles store rest
    match store a with
    | .stored api => ⟨api :: r.successful, r.failed⟩
    | .nullResult => ⟨r.successful, (a, "Failed to store article") :: r.failed⟩
    | .thrown msg => ⟨r.successful, (a, msg) :: r.failed⟩

/-- Which list a scraped link's entry lands in, and with what value. -/
def scrapeSuccessEntry (scrape : ArticleLink → ScrapeOutcome) (l : ArticleLink) :
    Option ScrapedArticle :=
  match scrape l with
  | .ok a => some a
  | _ => none

def scrapeFailureEntry (scrape : ArticleLink → ScrapeOutcome) (l : ArticleLink) :
    Option (String × String) :=
  match scrape l with
  | .ok _ => none
  | .fail e => some (l.url, if e = "" then "Unknown error" else e)
  | .thrown msg => some (l.url, msg)

def storeSuccessEntry (store : ScrapedArticle → StoreOutcome) (a : ScrapedArticle) :
    Option ApiArticle :=
  match store a with
  | .stored api => some api
  | _ => none

def storeFailureEntry (store : ScrapedArticle → StoreOutcome) (a : ScrapedArticle) :
    Option (ScrapedArticle × String) :=
  match store a with
  | .stored _ => none
  | .nullResult => some (a, "Failed to store article")
  | .thrown msg => some (a, msg)

lemma scrapeArticlesBatch_eq (scrape : ArticleLink → ScrapeOutcome)
    (links : List ArticleLink) :
    scrapeArticlesBatch scrape links
      = ⟨links.filterMap (scrapeSuccessEntry scrape),
         links.filterMap (scrapeFailureEntry scrape)⟩ := by
  induction links with
  | nil => rfl
  | cons l rest ih =>
    rcases ho : scrape l with a | e | msg <;>
      simp [scrapeArticlesBatch, ih, List.filterMap_cons,
        scrapeSuccessEntry, scrapeFailureEntry, ho]

lemma storeArticles_eq (store : ScrapedArticle → StoreOutcome)
    (articles : List ScrapedArticle) :
    storeArticles store articles
      = ⟨articles.filterMap (storeSuccessEntry store),
         articles.filterMap (storeFailureEntry store)⟩ := by
  induction articles with
  | nil => rfl
  | cons a rest ih =>
    rcases ho : store a with api | _ | msg <;>
      simp [storeArticles, ih, List.filterMap_cons,
        storeSuccessEntry, storeFailureEntry, ho]

lemma scrape_partition_count (scrape : ArticleLink → ScrapeOutcome)
    (links : List ArticleLink) :
    (links.filterMap (scrapeSuccessEntry scrape)).length
      + (links.filterMap (scrapeFailureEntry scrape)).length = links.length := by
  induction links with
  | nil => rfl
  | cons l rest ih =>
    rcases ho : scrape l with a | e | msg <;>
      simp [List.filterMap_cons, scrapeSuccessEntry, scrapeFailureEntry, ho] <;>
      omega

lemma store_partition_count (store : ScrapedArticle → StoreOutcome)
    (articles : List ScrapedArticle) :
    (articles.filterMap (storeSuccessEntry store)).length
      + (articles.filterMap (storeFailureEntry store)).length = articles.length := by
  induction articles with
  | nil => rfl
  | cons a rest ih =>
    rcases ho : store a with api | _ | msg <;>
      simp [List.filterMap_cons, storeSuccessEntry, storeFailureEntry, ho] <;>
      omega

/-! ### Claim C1: batch conservation -/

/-- C1: for both batch runs (`scrapeArticlesBatch` over links and
`storeArticles` over articles) the successes and failures are exactly the
input items filtered by their per-item outcome, in input order — so each
input contributes to exactly one of the two lists, never both, the relative
input order is preserved within each list, and the lengths sum to the input
length. -/
theorem batch_conservation (scrape : ArticleLink → ScrapeOutcome)
    (links : List ArticleLink)
    (store : ScrapedArticle → StoreOutcome) (articles : List ScrapedArticle) :
    ((scrapeArticlesBatch scrape links).successful
        = links.filterMap (scrapeSuccessEntry scrape)
      ∧ (scrapeArticlesBatch scrape links).failed
          = links.filterMap (scrapeFailureEntry scrape)
      ∧ (scrapeArticlesBatch scrape links).successful.length
          + (scrapeArticlesBatch scrape links).failed.length = links.length)
    ∧ ((storeArticles store articles).successful
        = articles.filterMap (storeSuccessEntry store)
      ∧ (storeArticles store articles).failed
          = articles.filterMap (storeFailureEntry store)
      ∧ (storeArticles store articles).successful.length
          + (storeArticles store articles).failed.length = articles.length) := by
  have h1 := scrapeArticlesBatch_eq scrape links
  have h2 := storeArticles_eq store articles
  refine ⟨⟨?_, ?_, ?_⟩, ⟨?_, ?_, ?_⟩⟩
  · rw [h1]
  · rw [h1]
  · rw [h1]
    exact scrape_partition_count scrape links
  · rw [h2]
  · rw [h2]
  · rw [h2]
    exact store_partition_count store articles

/-! ### `filterBlogResults` and `searchArticleTitle`
(google-search.service.ts) -/

/-- `config.googleSearch.excludeDomains` (config/index.ts, line 27). -/
def excludeDomains : List String := ["beyondchats.com"]

/-- `config.googleSearch.maxResults` (config/index.ts, line 26). -/
def maxResults : Nat := 2

/-- `excludeDomains.some(domain => result.url.toLowerCase().includes(domain.toLowerCase()))`. -/
def isExcludedResult (r : SearchResult) : Bool :=
  excludeDomains.any fun d => strContains (lowerStr r.url) (lowerStr d)

/-- The `isBlogLike` classification from the filter body. -/
def isBlogLike (r : SearchResult) : Bool :=
  let url := lowerStr r.url
  strContains url "/blog" || strContains url "/article" || strContains url "/post" ||
  strContains url "/news" || strContains url "/story" || strContains url "/guide" ||
  strContains url "/how-to" || strContains url "/what-is" || strContains url "/tips" ||
  (!strContains url "/product" && !strContains url "/pricing" &&
    !strContains url "/login" && !strContains url "/signup" && !strContains url "/cart")

/-- `filterBlogResults`: drop excluded domains, keep blog-like hits, truncate
to `maxResults` preserving order. -/
def filterBlogResults (results : List SearchResult) : List SearchResult :=
  (results.filter fun r => !isExcludedResult r && isBlogLike r).take maxResults

/-- The content-path markers named by the spec's filter description. -/
def contentPathMarkers : List String :=
  ["/blog", "/article", "/post", "/news", "/story", "/guide", "/how-to", "/what-is", "/tips"]

/-- The transactional-path markers named by the spec's filter description. -/
def transactionalMarkers : List String :=
  ["/product", "/pricing", "/login", "/signup", "/cart"]

/-- The claim's wording of a qualifying hit, stated independently of the
code: not excluded, and either some content-path marker occurs in the URL or
no transactional-path marker does. -/
def specQualifies (r : SearchResult) : Bool :=
  !isExcludedResult r &&
    (contentPathMarkers.any (fun m => strContains (lowerStr r.url) m) ||
      transactionalMarkers.all fun m => !strContains (lowerStr r.url) m)

lemma blogPred_eq_specQualifies (r : SearchResult) :
    (!isExcludedResult r && isBlogLike r) = specQualifies r := by
  simp only [isBlogLike, specQualifies, contentPathMarkers, transactionalMarkers,
    List.any_cons, List.any_nil, List.all_cons, List.all_nil,
    Bool.or_false, Bool.and_true, Bool.or_assoc, Bool.and_assoc]

/-! ### Claim C5: search-result filtering -/

/-- C5: `filterBlogResults` returns at most 2 hits, equal to the first (at
most) two qualifying hits of the input in input order — where qualifying
means not containing an excluded domain and either containing a
content-path marker or containing none of the transactional-path markers —
and no returned hit's URL contains any excluded-domain string. -/
theorem filterBlogResults_spec (results : List SearchResult) :
    (filterBlogResults results).length ≤ 2
    ∧ filterBlogResults results = (results.filter specQualifies).take 2
    ∧ ∀ r ∈ filterBlogResults results, ∀ d ∈ excludeDomains,
        strContains (lowerStr r.url) (lowerStr d) = false := by
  refine ⟨?_, ?_, ?_⟩
  · calc (filterBlogResults results).length
        ≤ maxResults := by
          simp [filterBlogResults, List.length_take]
      _ = 2 := rfl
  · unfold filterBlogResults maxResults
    rw [List.filter_congr fun r _ => blogPred_eq_specQualifies r]
  · intro r hr d hd
    have hmem : r ∈ results.filter fun x => !isExcludedResult x && isBlogLike x :=
      List.mem_of_mem_take hr
    have hpred := List.of_mem_filter hmem
    have hexc : isExcludedResult r = false := by
      rcases Bool.and_eq_true .. |>.mp hpred with ⟨h1, _⟩
      simpa using h1
    have := List.any_eq_false.mp (by simpa [isExcludedResult] using hexc)
    simpa using this d hd

/-- C5 witness: a concrete mixed hit list; the first excluded and first
transactional hits are dropped, the content hit is returned and its URL is
checked against the excluded-domain list. -/
theorem filterBlogResults_spec_witness :
    strContains
      (lowerStr (SearchResult.mk "t" "https://example.com/blog/x" none).url)
      (lowerStr "beyondchats.com") = false :=
  (filterBlogResults_spec
      [⟨"a", "https://beyondchats.com/blog/y", none⟩,
       ⟨"t", "https://example.com/blog/x", none⟩]).2.2
    ⟨"t", "https://example.com/blog/x", none⟩ (by decide)
    "beyondchats.com" (by decide)

/-- One Google result block as observed by the `page.evaluate` parser: the
`a[href^="http"]` link's href (if such a link element exists), the `h3`
heading's raw text (if one exists), and the snippet element's raw text. -/
structure RawResult where
  link : Option String
  heading : Option String
  snippet : Option String
deriving Repr, DecidableEq

/-- The `resultElements.forEach` parsing loop of `searchArticleTitle`: keep a
block only when it has both a link and a heading, the href and trimmed
heading text are non-empty, and the href does not contain `google.com`. -/
def parseResults : List RawResult → List SearchResult
  | [] => []
  | r :: rest =>
    match r.link, r.heading with
    | some url, some htext =>
      if url ≠ "" ∧ jsTrim htext ≠ "" ∧ strContains url "google.com" = false then
        ⟨jsTrim htext, url, r.snippet.map jsTrim⟩ :: parseResults rest
      else parseResults rest
    | _, _ => parseResults rest

/-- `searchArticleTitle`: on any navigation/parsing failure return an empty
result list; otherwise return the parsed results. -/
def searchArticleTitle (query : String) (nav : Except String (List RawResult)) :
    GoogleSearchResult :=
  match nav with
  | .error _ => ⟨[], query⟩
  | .ok raws => ⟨parseResults raws, query⟩

lemma parseResults_no_google (raws : List RawResult) :
    ∀ r ∈ parseResults raws, strContains r.url "google.com" = false := by
  induction raws with
  | nil => intro r hr; simp [parseResults] at hr
  | cons raw rest ih =>
    intro r hr
    rcases hl : raw.link with _ | url <;> rcases hh : raw.heading with _ | htext <;>
      simp only [parseResults, hl, hh] at hr
    · exact ih r hr
    · exact ih r hr
    · exact ih r hr
    · by_cases hc : url ≠ "" ∧ jsTrim htext ≠ "" ∧ strContains url "google.com" = false
      · rw [if_pos hc] at hr
        rcases List.mem_cons.mp hr with hr | hr
        · subst hr
          exact hc.2.2
        · exact ih r hr
      · rw [if_neg hc] at hr
        exact ih r hr

/-! ### Claim C9: google.com dropped during result parsing -/

/-- C9: no hit returned by `searchArticleTitle` has a URL containing the
substring `google.com`; such candidates are dropped by the parsing loop
itself, before `filterBlogResults` ever sees them. -/
theorem searchArticleTitle_no_google (query : String)
    (nav : Except String (List RawResult)) :
    ∀ r ∈ (searchArticleTitle query nav).results,
      strContains r.url "google.com" = false := by
  cases nav with
  | error e => intro r hr; simp [searchArticleTitle] at hr
  | ok raws =>
    intro r hr
    exact parseResults_no_google raws r (by simpa [searchArticleTitle] using hr)

/-- C9 witness: a concrete parse in which a google.com block is dropped and
the surviving hit's URL is checked. -/
theorem searchArticleTitle_no_google_witness :
    strContains
      (SearchResult.mk "Kept" "https://example.com/blog/x" none).url
      "google.com" = false :=
  searchArticleTitle_no_google "q"
    (.ok [⟨some "https://www.google.com/maps", some "Maps", none⟩,
          ⟨some "https://example.com/blog/x", some " Kept ", none⟩])
    ⟨"Kept", "https://example.com/blog/x", none⟩ (by decide)

/-! ### DOM model for the `page.evaluate` extraction functions

A DOM forest is a sibling-chained sequence of text nodes and element nodes
(an element holds its tag, attributes, and the forest of its children). A
`document.querySelector` call is modelled as a function from the (opaque)
selector string to an optional element; `document.body` is a distinguished
element. -/

inductive Dom where
  | nil
  | textNode (s : String) (next : Dom)
  | elemNode (tag : String) (attrs : List (String × String)) (child : Dom) (next : Dom)
deriving Repr, DecidableEq

/-- An element as returned by `querySelector`. -/
structure DomElem where
  tag : String
  attrs : List (String × String)
  children : Dom
deriving Repr, DecidableEq

/-- `textContent` of a forest: concatenation of all text in order. -/
def textContent : Dom → String
  | .nil => ""
  | .textNode s next => s ++ textContent next
  | .elemNode _ _ child next => textContent child ++ textContent next

/-- `el.textContent` (an element's own tag contributes no text). -/
def elemText (e : DomElem) : String :=
  textContent e.children

/-- The tags removed by
`clone.querySelectorAll('script, style, nav, header, footer, aside')`. -/
def chromeTags : List String := ["script", "style", "nav", "header", "footer", "aside"]

/-- Remove every element whose tag is a chrome tag (with its whole subtree)
from a forest. -/
def stripChrome : Dom → Dom
  | .nil => .nil
  | .textNode s next => .textNode s (stripChrome next)
  | .elemNode tag attrs child next =>
    if chromeTags.contains tag then stripChrome next
    else .elemNode tag attrs (stripChrome child) (stripChrome next)

/-- The clone-and-remove step applied to a queried element: chrome
descendants are removed, the element itself is kept (`querySelectorAll`
matches descendants only). -/
def stripElem (e : DomElem) : DomElem :=
  { e with children := stripChrome e.children }

/-- Text of a forest with every chrome subtree's text omitted, defined
directly (without building the stripped forest). -/
def nonChromeText : Dom → String
  | .nil => ""
  | .textNode s next => s ++ nonChromeText next
  | .elemNode tag _ child next =>
    (if chromeTags.contains tag then "" else nonChromeText child) ++ nonChromeText next

lemma stripChrome_text (d : Dom) : textContent (stripChrome d) = nonChromeText d := by
  induction d with
  | nil => rfl
  | textNode s next ih => simp [stripChrome, textContent, nonChromeText, ih]
  | elemNode tag attrs child next ihc ihn =>
    by_cases h : tag ∈ chromeTags
    · simp [stripChrome, nonChromeText, h, ihn]
    · simp [stripChrome, textContent, nonChromeText, h, ihc, ihn]

lemma stripElem_text (e : DomElem) : elemText (stripElem e) = nonChromeText e.children := by
  simp [stripElem, elemText, stripChrome_text]

/-- A loaded page: `querySelector` plus `document.body`. -/
structure PageDom where
  query : String → Option DomElem
  body : DomElem

/-- `el.getAttribute(name)`. -/
def getAttr (e : DomElem) (name : String) : Option String :=
  (e.attrs.find? fun p => p.1 == name).map Prod.snd

/-- The shared selector-candidate walk pattern
`if (el?.textContent?.trim()) { value = el.textContent.trim(); break; }`. -/
def fieldWalk (page : PageDom) : List String → String
  | [] => ""
  | sel :: rest =>
    match page.query sel with
    | some el =>
      if jsTrim (elemText el) ≠ "" then jsTrim (elemText el)
      else fieldWalk page rest
    | none => fieldWalk page rest

/-- The optional-field variant returning `null` when nothing matches. -/
def optFieldWalk (page : PageDom) : List String → Option String
  | [] => none
  | sel :: rest =>
    match page.query sel with
    | some el =>
      if jsTrim (elemText el) ≠ "" then some (jsTrim (elemText el))
      else optFieldWalk page rest
    | none => optFieldWalk page rest

/-- The publication-date walk: prefer a non-empty `datetime` attribute, then
non-empty text, else continue with the next selector. -/
def dateWalk (page : PageDom) : List String → Option String
  | [] => none
  | sel :: rest =>
    match page.query sel with
    | some el =>
      match getAttr el "datetime" with
      | some d =>
        if d ≠ "" then some d
        else if jsTrim (elemText el) ≠ "" then some (jsTrim (elemText el))
        else dateWalk page rest
      | none =>
        if jsTrim (elemText el) ≠ "" then some (jsTrim (elemText el))
        else dateWalk page rest
    | none => dateWalk page rest

/-! ### `scrapeArticleContent` (beyondchats-scraper.service.ts, lines 299-320) -/

def titleSelectors : List String :=
  ["h1", ".entry-title", ".post-title", "[class*=\"title\"]", "article h1", ".blog-title"]

def contentSelectors : List String :=
  [".entry-content", ".post-content", ".article-content", ".blog-content",
   "[class*=\"content\"]", "article", ".prose"]

def authorSelectors : List String :=
  [".author", ".author-name", "[class*=\"author\"]", "[rel=\"author\"]",
   ".byline", ".meta-author"]

def dateSelectors : List String :=
  ["time[datetime]", ".date", ".published", ".post-date", "[class*=\"date\"]",
   ".meta-date"]

/-- The article content walk: accept the first candidate whose raw
`textContent` trims to a non-empty string longer than 100 characters.
The source does not clone-and-strip chrome elements here. -/
def articleContentWalk (page : PageDom) : List String → String
  | [] => ""
  | sel :: rest =>
    match page.query sel with
    | some el =>
      if jsTrim (elemText el) ≠ "" ∧ (jsTrim (elemText el)).length > 100
      then jsTrim (elemText el)
      else articleContentWalk page rest
    | none => articleContentWalk page rest

/-- `scrapeArticleContent`: navigation is an oracle; on a loaded page run the
four field walks and fail unless title and content are non-empty. -/
def scrapeArticleContent (url : String) (nav : Except String PageDom) :
    Except String ScrapedArticle :=
  match nav with
  | .error e => .error e
  | .ok page =>
    let title := fieldWalk page titleSelectors
    let content := articleContentWalk page contentSelectors
    if title = "" ∨ content = "" then .error "Missing required fields: title or content"
    else .ok ⟨title, content, optFieldWalk page authorSelectors,
              dateWalk page dateSelectors, url⟩

/-! ### `scrapeContent` (reference-scraper.service.ts, lines 352-463) -/

def refTitleSelectors : List String :=
  ["h1", ".entry-title", ".post-title", ".article-title", "[class*=\"title\"]",
   "article h1", ".blog-title", "header h1", "[itemprop=\"headline\"]"]

def refContentSelectors : List String :=
  ["article", ".entry-content", ".post-content", ".article-content", ".blog-content",
   "[class*=\"content\"]", ".prose", "main", ".main-content", "[itemprop=\"articleBody\"]"]

/-- The reference content walk: clone the candidate, strip chrome
descendants, and accept the first candidate whose stripped text trims to
more than 200 characters. -/
def refContentWalk (page : PageDom) : List String → String
  | [] => ""
  | sel :: rest =>
    match page.query sel with
    | some el =>
      if (jsTrim (elemText (stripElem el))).length > 200
      then jsTrim (elemText (stripElem el))
      else refContentWalk page rest
    | none => refContentWalk page rest

/-- The claim's wording of the same walk, measuring the chrome-free text
directly (stated independently of `stripElem`, for comparison). -/
def refContentWalkNC (page : PageDom) : List String → String
  | [] => ""
  | sel :: rest =>
    match page.query sel with
    | some el =>
      if (jsTrim (nonChromeText el.children)).length > 200
      then jsTrim (nonChromeText el.children)
      else refContentWalkNC page rest
    | none => refContentWalkNC page rest

/-- The selector walk plus the whole-`document.body` fallback (also stripped
of chrome) used when no candidate matched. -/
def refExtractContent (page : PageDom) : String :=
  let c := refContentWalk page refContentSelectors
  if c = "" then jsTrim (elemText (stripElem page.body)) else c

/-- `maxContentLength` (reference-scraper.service.ts, line 441). -/
def maxContentLength : Nat := 10000

/-- The post-validation truncation: `content.substring(0, 10000) + '...'`
when longer than the cap, unchanged otherwise. -/
def truncateContent (s : String) : String :=
  if s.length > maxContentLength then String.mk (s.toList.take maxContentLength) ++ "..."
  else s

/-- `scrapeContent`: navigation is an oracle; on a loaded page run the title
walk and content extraction, fail unless both are non-empty, then truncate
the content. -/
def scrapeContent (url : String) (nav : Except String PageDom) :
    Except String ReferenceContent :=
  match nav with
  | .error e => .error e
  | .ok page =>
    if fieldWalk page refTitleSelectors = "" ∨ refExtractContent page = ""
    then .error "Missing required fields: title or content"
    else .ok ⟨fieldWalk page refTitleSelectors,
              truncateContent (refExtractContent page), url⟩

/-! ### Claim C6: field completeness of successful article extraction -/

/-- C6: whenever `scrapeArticleContent` reports success (for the non-empty
URLs the pipeline feeds it — `extractArticleLinks` filters out empty hrefs),
the returned article's title, content and source URL are non-empty; and
whenever the title or content walk comes back empty the call returns the
descriptive failure, never a partially-populated success. -/
theorem scrapeArticleContent_completeness :
    (∀ (url : String) (nav : Except String PageDom) (a : ScrapedArticle),
        url ≠ "" → scrapeArticleContent url nav = .ok a →
        a.title ≠ "" ∧ a.content ≠ "" ∧ a.source_url ≠ "")
    ∧ (∀ (url : String) (page : PageDom),
        fieldWalk page titleSelectors = "" ∨ articleContentWalk page contentSelectors = "" →
        scrapeArticleContent url (.ok page)
          = .error "Missing required fields: title or content") := by
  constructor
  · intro url nav a hurl h
    cases nav with
    | error e => simp [scrapeArticleContent] at h
    | ok page =>
      by_cases hemp : fieldWalk page titleSelectors = ""
          ∨ articleContentWalk page contentSelectors = ""
      · rw [scrapeArticleContent, if_pos hemp] at h
        cases h
      · rw [scrapeArticleContent, if_neg hemp] at h
        have ha := Except.ok.inj h
        push_neg at hemp
        rw [← ha]
        exact ⟨hemp.1, hemp.2, hurl⟩
  · intro url page hemp
    rw [scrapeArticleContent, if_pos hemp]

def longA : String := String.mk (List.replicate 101 'a')

def pageStub : PageDom :=
  ⟨fun sel =>
      if sel = "h1" then some ⟨"h1", [], .textNode "Title" .nil⟩
      else if sel = ".entry-content" then some ⟨"div", [], .textNode longA .nil⟩
      else none,
    ⟨"body", [], .nil⟩⟩

/-- C6 witness: a concrete page with a title element and a 101-character
content element; the success result has all three required fields. -/
theorem scrapeArticleContent_completeness_witness :
    (⟨"Title", longA, none, none, "https://beyondchats.com/blogs/x"⟩
        : ScrapedArticle).title ≠ ""
    ∧ (⟨"Title", longA, none, none, "https://beyondchats.com/blogs/x"⟩
        : ScrapedArticle).content ≠ ""
    ∧ (⟨"Title", longA, none, none, "https://beyondchats.com/blogs/x"⟩
        : ScrapedArticle).source_url ≠ "" :=
  scrapeArticleContent_completeness.1 "https://beyondchats.com/blogs/x" (.ok pageStub)
    ⟨"Title", longA, none, none, "https://beyondchats.com/blogs/x"⟩
    (by decide) (by decide)

/-! ### Claim C7: reference body truncation -/

/-- C7: for every reference document successfully returned by
`scrapeContent`, the stored content is the extracted body unchanged when it
is at most `maxContentLength = 10000` characters, and exactly the first
10000 characters with the ellipsis marker `...` appended (total length
10003) when longer. -/
theorem scrapeContent_truncation (url : String) (page : PageDom)
    (r : ReferenceContent) (h : scrapeContent url (.ok page) = .ok r) :
    maxContentLength = 10000
    ∧ (¬ (refExtractContent page).length > maxContentLength →
        r.content = refExtractContent page)
    ∧ ((refExtractContent page).length > maxContentLength →
        r.content
            = String.mk ((refExtractContent page).toList.take maxContentLength) ++ "..."
          ∧ r.content.length = maxContentLength + 3) := by
  by_cases hemp : fieldWalk page refTitleSelectors = "" ∨ refExtractContent page = ""
  · rw [scrapeContent, if_pos hemp] at h
    cases h
  · rw [scrapeContent, if_neg hemp] at h
    have ha := Except.ok.inj h
    refine ⟨rfl, ?_, ?_⟩
    · intro hle
      rw [← ha]
      simp only [truncateContent, if_neg hle]
    · intro hgt
      rw [← ha]
      constructor
      · simp only [truncateContent, if_pos hgt]
      · simp only [truncateContent, if_pos hgt]
        rw [String.length_append]
        have htake : ((refExtractContent page).toList.take maxContentLength).length
            = maxContentLength := by
          rw [List.length_take]
          have : maxContentLength ≤ (refExtractContent page).toList.length := by
            have hl : (refExtractContent page).toList.length
                = (refExtractContent page).length := rfl
            omega
          omega
        have hmk : (String.mk ((refExtractContent page).toList.take maxContentLength)).length
            = ((refExtractContent page).toList.take maxContentLength).length := rfl
        rw [hmk, htake]
        rfl

def pageRef : PageDom :=
  ⟨fun sel => if sel = "h1" then some ⟨"h1", [], .textNode "T" .nil⟩ else none,
    ⟨"body", [], .textNode "short reference body text" .nil⟩⟩

/-- C7 witness: a concrete successful reference scrape whose extracted body
is below the cap, so the stored content equals the extracted body. -/
theorem scrapeContent_truncation_witness :
    (⟨"T", "short reference body text", "https://ref.example.com"⟩
        : ReferenceContent).content = refExtractContent pageRef :=
  (scrapeContent_truncation "https://ref.example.com" pageRef
    ⟨"T", "short reference body text", "https://ref.example.com"⟩
    (by decide)).2.1 (by decide)

/-! ### Claim C8: chrome stripping before measuring body text -/

/-- C8 (amended): the stripping guarantee holds in reference scraping only.
In `scrapeContent`, stripping a candidate (or the body fallback) removes
exactly the text under chrome elements (`textContent ∘ stripChrome` equals
the directly-defined chrome-free text), and the candidate walk and fallback
measure and return only that chrome-free text. `scrapeArticleContent`, by
contrast, measures raw `textContent` (see the counterexample theorem). -/
theorem scrapeContent_strips_chrome :
    (∀ d : Dom, textContent (stripChrome d) = nonChromeText d)
    ∧ (∀ (page : PageDom) (sels : List String),
        refContentWalk page sels = refContentWalkNC page sels)
    ∧ (∀ page : PageDom,
        refExtractContent page
          = if refContentWalkNC page refContentSelectors = ""
            then jsTrim (nonChromeText page.body.children)
            else refContentWalkNC page refContentSelectors) := by
  have hwalk : ∀ (page : PageDom) (sels : List String),
      refContentWalk page sels = refContentWalkNC page sels := by
    intro page sels
    induction sels with
    | nil => rfl
    | cons sel rest ih =>
      cases hq : page.query sel with
      | none => simp [refContentWalk, refContentWalkNC, hq, ih]
      | some el => simp [refContentWalk, refContentWalkNC, hq, ih, stripElem_text]
  refine ⟨stripChrome_text, hwalk, ?_⟩
  intro page
  simp only [refExtractContent, hwalk, stripElem_text]

def navChromeText : String := String.mk (List.replicate 101 'x')

def chromePage : PageDom :=
  ⟨fun sel =>
      if sel = "h1" then some ⟨"h1", [], .textNode "T" .nil⟩
      else if sel = ".entry-content" then
        some ⟨"div", [], .elemNode "nav" [] (.textNode navChromeText .nil) .nil⟩
      else none,
    ⟨"body", [], .nil⟩⟩

/-- C8 counterexample: `scrapeArticleContent` accepts as article content a
candidate whose 101 characters of text sit entirely inside a `nav` element —
its chrome-free text is empty — so chrome text does satisfy the source-side
body threshold, refuting the claim for source-article scraping. -/
theorem scrapeArticleContent_chrome_counts :
    scrapeArticleContent "https://beyondchats.com/blogs/p" (.ok chromePage)
      = .ok ⟨"T", navChromeText, none, none, "https://beyondchats.com/blogs/p"⟩
    ∧ nonChromeText (Dom.elemNode "nav" [] (.textNode navChromeText .nil) .nil) = "" := by
  decide
